import Mathlib

/-!
Verification of the weather-analytics storage layer and query layer
(`backend/storage.py` and `backend/main.py`), as a shallow embedding.

The embedding models:
- `datetime` values as calendar records (`PyDate`, `PyDateTime`); the modeled
  domain of `datetime.fromisoformat` is the timezone-naive subset
  `YYYY-MM-DD` and `YYYY-MM-DDTHH:MM:SS` (after the source's
  `replace("Z", "+00:00")` step); every other string fails to parse,
  matching the source's `except`-guarded parse sites.
- a `.jsonl` partition store (`Store`) as a list of date partitions, each a
  list of files, each a list of lines; a line either holds a record that
  `json.loads` round-trips (`JsonLine.ok`), a parseable-but-falsy value
  skipped by `if record:` (`JsonLine.falsy`), or raw bytes on which
  `json.loads` raises (`JsonLine.bad`).
- floats as exact rationals; `round(x, 2)` as round-half-to-even on
  hundredths, Python's float rounding mode.
- Python's stable `sort`/`sorted` as `List.insertionSort` (stable).
-/

namespace BDAWeather

/-- Calendar date, as produced by `datetime.date`. -/
structure PyDate where
  year : Nat
  month : Nat
  day : Nat
deriving DecidableEq

/-- Timezone-naive `datetime` value. -/
structure PyDateTime where
  date : PyDate
  hour : Nat
  minute : Nat
  second : Nat
deriving DecidableEq

/-- Mixed-radix linearization of a date; strictly monotone on valid dates
(month at most 12, day at most 31), so comparisons of keys agree with
Python's `date` ordering. -/
def PyDate.key (d : PyDate) : Nat :=
  (d.year * 16 + d.month) * 32 + d.day

/-- Mixed-radix linearization of a naive datetime; comparisons of keys agree
with Python's `datetime` ordering on valid values. -/
def PyDateTime.key (t : PyDateTime) : Nat :=
  ((t.date.key * 24 + t.hour) * 60 + t.minute) * 60 + t.second

def isLeap (y : Nat) : Bool :=
  (y % 4 == 0 && y % 100 != 0) || y % 400 == 0

def daysInMonth (y m : Nat) : Nat :=
  if m = 2 then (if isLeap y then 29 else 28)
  else if m = 4 ∨ m = 6 ∨ m = 9 ∨ m = 11 then 30
  else 31

/-- Day count of a civil date from the epoch of the standard
days-from-civil algorithm (eras of 400 years); used to model `timedelta`
day arithmetic exactly. -/
def PyDate.toDayNumber (d : PyDate) : Nat :=
  let y := if d.month ≤ 2 then d.year - 1 else d.year
  let era := y / 400
  let yoe := y % 400
  let mp := (d.month + 9) % 12
  let doy := (153 * mp + 2) / 5 + d.day - 1
  let doe := yoe * 365 + yoe / 4 - yoe / 100 + doy
  era * 146097 + doe

/-- Inverse of `PyDate.toDayNumber` (standard civil-from-days algorithm). -/
def dayNumberToDate (z : Nat) : PyDate :=
  let era := z / 146097
  let doe := z % 146097
  let yoe := (doe - doe / 1460 + doe / 36524 - doe / 146096) / 365
  let y := yoe + era * 400
  let doy := doe - (365 * yoe + yoe / 4 - yoe / 100)
  let mp := (5 * doy + 2) / 153
  let d := doy - (153 * mp + 2) / 5 + 1
  let m := if mp < 10 then mp + 3 else mp - 9
  ⟨if m ≤ 2 then y + 1 else y, m, d⟩

/-- Model of `date + timedelta(days=n)`. -/
def PyDate.addDays (d : PyDate) (n : Nat) : PyDate :=
  dayNumberToDate (d.toDayNumber + n)

/-- Model of `datetime - timedelta(days=n)` (time of day unchanged). -/
def PyDateTime.subDays (t : PyDateTime) (n : Nat) : PyDateTime :=
  ⟨dayNumberToDate (t.date.toDayNumber - n), t.hour, t.minute, t.second⟩

/-- Value of a decimal digit character, if it is one. -/
def digitVal (c : Char) : Option Nat :=
  if c.isDigit then some (c.toNat - 48) else none

def twoDigits (a b : Char) : Option Nat := do
  let x ← digitVal a
  let y ← digitVal b
  pure (x * 10 + y)

def fourDigits (a b c d : Char) : Option Nat := do
  let x ← twoDigits a b
  let y ← twoDigits c d
  pure (x * 100 + y)

/-- Checked date construction: the field validation `datetime.fromisoformat`
performs (year 1–9999, month 1–12, day 1–days-in-month). -/
def mkValidDate (y m d : Nat) : Option PyDate :=
  if 1 ≤ y ∧ y ≤ 9999 ∧ 1 ≤ m ∧ m ≤ 12 ∧ 1 ≤ d ∧ d ≤ daysInMonth y m then
    some ⟨y, m, d⟩
  else none

def mkValidTime (h mi s : Nat) : Option (Nat × Nat × Nat) :=
  if h ≤ 23 ∧ mi ≤ 59 ∧ s ≤ 59 then some (h, mi, s) else none

/-- Character-level parser for the modeled subset of ISO-8601:
`YYYY-MM-DD` and `YYYY-MM-DDTHH:MM:SS`, timezone-naive. Anything else is a
parse failure (`None`), which models `fromisoformat` raising. -/
def parseIsoChars : List Char → Option PyDateTime
  | [y1, y2, y3, y4, '-', m1, m2, '-', d1, d2] => do
      let y ← fourDigits y1 y2 y3 y4
      let m ← twoDigits m1 m2
      let d ← twoDigits d1 d2
      let dt ← mkValidDate y m d
      pure ⟨dt, 0, 0, 0⟩
  | [y1, y2, y3, y4, '-', m1, m2, '-', d1, d2, 'T',
     h1, h2, ':', n1, n2, ':', s1, s2] => do
      let y ← fourDigits y1 y2 y3 y4
      let m ← twoDigits m1 m2
      let d ← twoDigits d1 d2
      let dt ← mkValidDate y m d
      let h ← twoDigits h1 h2
      let n ← twoDigits n1 n2
      let s ← twoDigits s1 s2
      let tm ← mkValidTime h n s
      pure ⟨dt, tm.1, tm.2.1, tm.2.2⟩
  | _ => none

/-- Fuel-driven engine for `replaceAll`; with fuel at least the length of the
input it replaces every non-overlapping occurrence left to right, which is
the semantics of Python's `str.replace`. -/
def replaceAllFuel (pat repl : List Char) : Nat → List Char → List Char
  | _, [] => []
  | 0, s => s
  | fuel + 1, c :: rest =>
      if pat ≠ [] ∧ pat.isPrefixOf (c :: rest) then
        repl ++ replaceAllFuel pat repl fuel ((c :: rest).drop pat.length)
      else
        c :: replaceAllFuel pat repl fuel rest

/-- Model of Python's `str.replace` (all occurrences), on character lists. -/
def replaceAll (pat repl s : List Char) : List Char :=
  replaceAllFuel pat repl s.length s

/-- Model of `datetime.fromisoformat(ts.replace("Z", "+00:00"))`: the parse
step shared by `_get_partition_path`, `read_records` and `_parse_iso_date`.
Offset-bearing forms (such as any produced by the `Z` replacement) are
outside the modeled naive subset and fail to parse. -/
def pyFromIso (s : String) : Option PyDateTime :=
  parseIsoChars (replaceAll "Z".data "+00:00".data s.data)

/-- Two-digit zero-padded decimal rendering. -/
def pad2 (n : Nat) : String :=
  if n < 10 then "0" ++ toString n else toString n

/-- Four-digit zero-padded decimal rendering. -/
def pad4 (n : Nat) : String :=
  if n < 10 then "000" ++ toString n
  else if n < 100 then "00" ++ toString n
  else if n < 1000 then "0" ++ toString n
  else toString n

/-- Model of `date.strftime("%Y-%m-%d")` and `date.isoformat()`. -/
def PyDate.isoString (d : PyDate) : String :=
  pad4 d.year ++ "-" ++ pad2 d.month ++ "-" ++ pad2 d.day

/-- Model of `datetime.isoformat()` for naive values. -/
def PyDateTime.isoString (t : PyDateTime) : String :=
  t.date.isoString ++ "T" ++ pad2 t.hour ++ ":" ++ pad2 t.minute ++ ":" ++ pad2 t.second

/-- Lexicographic order on character lists by code point — the order Python
uses to compare strings. -/
def charListLe : List Char → List Char → Bool
  | [], _ => true
  | _ :: _, [] => false
  | a :: as, b :: bs =>
      if a < b then true
      else if b < a then false
      else charListLe as bs

/-- Python string order (code-point lexicographic). -/
def strLe (a b : String) : Bool := charListLe a.data b.data

/-- Ascending string order as a relation, for sorting and sortedness
statements. -/
def strLeProp (a b : String) : Prop := strLe a b = true

instance : DecidableRel strLeProp := fun a b => by
  unfold strLeProp; infer_instance

/-- Model of `str.lower()` on the ASCII city names this system handles. -/
def strToLower (s : String) : String := ⟨s.data.map Char.toLower⟩

/-- Model of `str.startswith`. -/
def strBeginsWith (s pat : String) : Bool := pat.data.isPrefixOf s.data

/-- Model of `str.endswith`. -/
def strFinishesWith (s pat : String) : Bool := pat.data.isSuffixOf s.data

/-- The normalized weather observation (`WeatherRecord` in `main.py`,
persisted unchanged by `storage.py`). Floats are modeled as exact
rationals; `tempC`/`humidity`/`windKph` may be `null`. -/
structure WeatherRecord where
  city : String
  timestamp : String
  tempC : Option ℚ
  humidity : Option ℚ
  windKph : Option ℚ
  conditions : String
deriving DecidableEq

/-- One line of a `.jsonl` partition file, as `read_records` sees it:
`ok r` is a line `json.dumps` wrote for record `r` (which `json.loads`
round-trips to `r`); `falsy` is a line that parses to a falsy value and is
skipped by `if record:`; `bad` is a line on which `json.loads` raises. -/
inductive JsonLine where
  | ok (r : WeatherRecord)
  | falsy
  | bad (raw : String)
deriving DecidableEq

/-- A file inside a date partition directory. -/
structure PFile where
  name : String
  lines : List JsonLine
deriving DecidableEq

/-- A child directory of the `ingest` root (normally named `date=...`). -/
structure Partition where
  name : String
  files : List PFile
deriving DecidableEq

/-- The contents of `<base>/apps/weather/ingest`, in directory-listing
order. -/
abbrev Store := List Partition

/-- Model of `LocalAdapter._get_partition_path`: the partition date comes
from the record's own timestamp, with the current time as the fallback when
the timestamp does not parse. -/
def partitionDateOf (now : PyDateTime) (r : WeatherRecord) : PyDate :=
  match pyFromIso r.timestamp with
  | some dt => dt.date
  | none => now.date

/-- Partition directory name, `date=YYYY-MM-DD`. -/
def partitionNameOf (now : PyDateTime) (r : WeatherRecord) : String :=
  "date=" ++ (partitionDateOf now r).isoString

/-- Model of `LocalAdapter._get_file_path`'s basename:
`<lowercased city>.jsonl`. -/
def fileNameOf (r : WeatherRecord) : String :=
  strToLower r.city ++ ".jsonl"

/-- Append one serialized line to the named file, creating the file (at the
end of the directory listing) if absent. -/
def appendLineToFiles (fname : String) (line : JsonLine) : List PFile → List PFile
  | [] => [⟨fname, [line]⟩]
  | f :: fs =>
      if f.name = fname then ⟨f.name, f.lines ++ [line]⟩ :: fs
      else f :: appendLineToFiles fname line fs

/-- Model of `LocalAdapter.write_record`: compute the partition from the
record's timestamp, ensure the partition directory exists, and append the
record as one JSON line to `<partition>/<city>.jsonl`. -/
def write_record (now : PyDateTime) (r : WeatherRecord) : Store → Store
  | [] => [⟨partitionNameOf now r, [⟨fileNameOf r, [JsonLine.ok r]⟩]⟩]
  | p :: ps =>
      if p.name = partitionNameOf now r then
        ⟨p.name, appendLineToFiles (fileNameOf r) (JsonLine.ok r) p.files⟩ :: ps
      else p :: write_record now r ps

/-- Writing a batch of records one at a time, in input order. -/
def writeAll (now : PyDateTime) (rs : List WeatherRecord) (s : Store) : Store :=
  rs.foldl (fun st r => write_record now r st) s

/-- Model of `filename.replace(".jsonl", "")`. -/
def fileCityOf (fname : String) : String :=
  ⟨replaceAll ".jsonl".data [] fname.data⟩

/-- The per-record `since` filter inside `read_records`: with a `since`
bound, a record whose timestamp is falsy or fails to parse is kept (the
comparison is skipped inside the `except`), and a record whose parsed
timestamp is earlier than `since` is dropped. -/
def keepRecord (since? : Option PyDateTime) (r : WeatherRecord) : Bool :=
  match since? with
  | none => true
  | some since =>
      if r.timestamp = "" then true
      else
        match pyFromIso r.timestamp with
        | none => true
        | some dt => if dt.key < since.key then false else true

/-- The line loop of `read_records` over one file: unparsable lines and
falsy values are skipped, surviving records are filtered by `since`. -/
def lineRecords (since? : Option PyDateTime) : List JsonLine → List WeatherRecord
  | [] => []
  | JsonLine.ok r :: rest =>
      (if keepRecord since? r then [r] else []) ++ lineRecords since? rest
  | JsonLine.falsy :: rest => lineRecords since? rest
  | JsonLine.bad _ :: rest => lineRecords since? rest

/-- The city filter of `read_records`: `if city and file_city != city.lower()`
skips the file; a falsy (empty) requested city disables the filter. -/
def cityMatches (city? : Option String) (fileCity : String) : Bool :=
  match city? with
  | none => true
  | some c => if c = "" then true else fileCity == strToLower c

/-- The file loop of `read_records` over one partition directory: only
`.jsonl` files, restricted by the city filter. -/
def fileListRecords (city? : Option String) (since? : Option PyDateTime) :
    List PFile → List WeatherRecord
  | [] => []
  | f :: fs =>
      (if strFinishesWith f.name ".jsonl" ∧ cityMatches city? (fileCityOf f.name) then
        lineRecords since? f.lines
      else []) ++ fileListRecords city? since? fs

/-- Model of `LocalAdapter.read_records`: scan every `date=` partition in
listing order, and within each the matching `.jsonl` files. -/
def read_records (city? : Option String) (since? : Option PyDateTime) :
    Store → List WeatherRecord
  | [] => []
  | p :: ps =>
      (if strBeginsWith p.name "date=" then fileListRecords city? since? p.files
      else []) ++ read_records city? since? ps

/-- The city names contributed by one partition's files in
`LocalAdapter.list_cities`: each `.jsonl` filename, suffix stripped,
lowercased, kept when non-empty. -/
def collectFileCities : List PFile → List String
  | [] => []
  | f :: fs =>
      (if strFinishesWith f.name ".jsonl" ∧ strToLower (fileCityOf f.name) ≠ "" then
        [strToLower (fileCityOf f.name)]
      else []) ++ collectFileCities fs

/-- All city names collected by `LocalAdapter.list_cities` before
deduplication and sorting. -/
def collectCities : Store → List String
  | [] => []
  | p :: ps =>
      (if strBeginsWith p.name "date=" then collectFileCities p.files else []) ++
        collectCities ps

/-- Model of Python's `sorted(list(set(xs)))` for strings. -/
def pySortedSet (xs : List String) : List String :=
  xs.dedup.insertionSort strLeProp

/-- The city key a record's write contributes to `list_cities`: its
filename with the `.jsonl` suffix stripped, lowercased. -/
def cityKey (r : WeatherRecord) : String :=
  strToLower (fileCityOf (fileNameOf r))

/-- Model of `LocalAdapter.list_cities`. -/
def list_cities (s : Store) : List String :=
  pySortedSet (collectCities s)

/-- Model of `LocalAdapter.get_storage_type`. -/
def get_storage_type : String := "local"

/-- A raised Python exception, identified by its type name and message. -/
structure PyExc where
  typeName : String
  msg : String
deriving DecidableEq

/-- Model of `HDFSAdapter.write_record`'s error path: any underlying client
failure is re-raised as a plain `Exception` whose message embeds the cause
(`raise Exception(f"HDFS write failed: {e}")`). `underlying = none` means
the client calls succeed. -/
def hdfs_write_record (underlying : Option PyExc) (_r : WeatherRecord) :
    Except PyExc Unit :=
  match underlying with
  | none => Except.ok ()
  | some e => Except.error ⟨"Exception", "HDFS write failed: " ++ e.msg⟩

/-- Model of `LocalAdapter.write_record` including its error behavior: the
body has no `try`/`except`, so an underlying I/O error propagates to the
caller unwrapped and unchanged. -/
def local_write_record_exc (underlying : Option PyExc) (now : PyDateTime)
    (r : WeatherRecord) (s : Store) : Except PyExc Store :=
  match underlying with
  | none => Except.ok (write_record now r s)
  | some e => Except.error e

/-- An HTTP error response (`HTTPException(status_code, detail)`). -/
structure HttpError where
  status : Nat
  detail : String
deriving DecidableEq

/-- The loop body of the `/ingest` handler: write each record in input
order, counting successes; the first storage exception aborts the loop and
is reported as a 500 with the exception's message, with no rollback of the
records already written. Each record is paired with the outcome of its
underlying write (`none` = success). -/
def ingestLoop (now : PyDateTime) :
    List (Option PyExc × WeatherRecord) → Store → Nat → Except HttpError Nat × Store
  | [], s, count => (Except.ok count, s)
  | (fail, r) :: rest, s, count =>
      match local_write_record_exc fail now r s with
      | Except.ok s' => ingestLoop now rest s' (count + 1)
      | Except.error e => (Except.error ⟨500, e.msg⟩, s)

/-- Model of the `/ingest` handler `ingest_weather`: an empty batch is a
400, otherwise records are written one at a time in input order. -/
def ingest_weather (now : PyDateTime)
    (batch : List (Option PyExc × WeatherRecord)) (s : Store) :
    Except HttpError Nat × Store :=
  if batch = [] then (Except.error ⟨400, "No records provided"⟩, s)
  else ingestLoop now batch s 0

/-- Descending-by-timestamp-string comparison used by the `/history`
handler's `records.sort(key=..., reverse=True)`. -/
def tsDescLe (a b : WeatherRecord) : Prop := strLe b.timestamp a.timestamp = true

instance : DecidableRel tsDescLe := fun a b => by
  unfold tsDescLe; infer_instance

/-- Model of the `/history` handler `get_history`: read records for the
city newer than `now - timedelta(days=days)` and sort them descending by
raw timestamp string. The handler has no start/end date parameters. -/
def get_history (city? : Option String) (days : Nat) (now : PyDateTime)
    (s : Store) : List WeatherRecord :=
  (read_records city? (some (now.subDays days)) s).insertionSort tsDescLe

/-- Modelled from the spec (section 4.3, "History retrieval"), for
comparison against the source's `get_history`: `read_records` filtered
further by an inclusive `[start_date, end_date]` calendar-day window. No
such operation exists in the source. -/
def specHistoryWindow (city? : Option String) (startD endD : PyDate)
    (s : Store) : List WeatherRecord :=
  (read_records city? none s).filter fun r =>
    match pyFromIso r.timestamp with
    | some dt => decide (startD.key ≤ dt.date.key ∧ dt.date.key ≤ endD.key)
    | none => false

/-- Floor of a rational, as an integer (used to model Python rounding). -/
def ratFloor (q : ℚ) : ℤ := ⌊q⌋

/-- Round-half-to-even to an integer, Python's rounding mode for `round`. -/
def roundHalfEven (q : ℚ) : ℤ :=
  let f := ratFloor q
  if q - f < 1 / 2 then f
  else if (1 : ℚ) / 2 < q - f then f + 1
  else if f % 2 = 0 then f else f + 1

/-- Model of Python's `round(x, 2)`. -/
def pyRound2 (q : ℚ) : ℚ := (roundHalfEven (q * 100) : ℚ) / 100

/-- Arithmetic mean (`statistics.mean`, exact). -/
def pyMean (l : List ℚ) : ℚ := l.sum / l.length

/-- The OLS slope of `_linear_forecast` for a series of two or more values:
`sum((x - mean_x) * (y - mean_y)) / sum((x - mean_x)^2)`, and `0.0` when the
denominator is zero. -/
def linSlope (values : List ℚ) : ℚ :=
  let n := values.length
  let xs := (List.range n).map fun x => (x : ℚ)
  let meanX := xs.sum / n
  let meanY := values.sum / n
  let denom := (xs.map fun x => (x - meanX) ^ 2).sum
  if denom = 0 then 0
  else ((xs.zip values).map fun p => (p.1 - meanX) * (p.2 - meanY)).sum / denom

/-- The OLS intercept of `_linear_forecast`: `mean_y - slope * mean_x`. -/
def linIntercept (values : List ℚ) : ℚ :=
  let n := values.length
  let xs := (List.range n).map fun x => (x : ℚ)
  values.sum / n - linSlope values * (xs.sum / n)

/-- Model of `_linear_forecast`: `None`s for an empty series, a flat repeat
of the rounded single value for a one-point series, otherwise the OLS line
evaluated at indices `len(values) .. len(values) + periods - 1`, each value
rounded to 2 decimals. -/
def linearForecast (values : List ℚ) (periods : Nat) : List (Option ℚ) :=
  if values = [] then List.replicate periods none
  else if values.length = 1 then
    List.replicate periods (some (pyRound2 (values.headD 0)))
  else
    (List.range periods).map fun k =>
      some (pyRound2 (linIntercept values + linSlope values * ((values.length : ℚ) + k)))

/-- One output day of the forecast. -/
structure ForecastDay where
  date : String
  tempC : Option ℚ
  humidity : Option ℚ
  windKph : Option ℚ
deriving DecidableEq

/-- The successful `/forecast` response body. -/
structure ForecastResponse where
  city : String
  generated_at : String
  lookback_days : Nat
  forecast_days : Nat
  data : List ForecastDay
deriving DecidableEq

/-- The calendar dates of the records' own timestamps, in record order
(`_parse_iso_date` applied inside `generate_forecast`; unparsable
timestamps contribute nothing). -/
def recordDates (records : List WeatherRecord) : List PyDate :=
  records.filterMap fun r => (pyFromIso r.timestamp).map PyDateTime.date

/-- Ascending order on dates by key, used to model `sorted(daily_map.keys())`. -/
def dateLe (a b : PyDate) : Prop := a.key ≤ b.key

instance : DecidableRel dateLe := fun a b => by
  unfold dateLe; infer_instance

/-- The samples one metric contributes on one calendar day: the numeric
values of records whose timestamp parses to that day, in record order. -/
def metricOn (records : List WeatherRecord) (get : WeatherRecord → Option ℚ)
    (d : PyDate) : List ℚ :=
  records.filterMap fun r =>
    match pyFromIso r.timestamp with
    | some dt => if dt.date = d then get r else none
    | none => none

/-- The per-day mean series of one metric over the chosen lookback dates:
days with no sample for the metric contribute no entry (not zero). -/
def metricSeries (records : List WeatherRecord) (get : WeatherRecord → Option ℚ)
    (dates : List PyDate) : List ℚ :=
  dates.filterMap fun d =>
    let v := metricOn records get d
    if v = [] then none else some (pyRound2 (pyMean v))

/-- Python's `xs[-k:]` for `k = lookback` on the sorted date list. -/
def lastLookback (lookback : Nat) (dates : List PyDate) : List PyDate :=
  if lookback = 0 then dates else dates.drop (dates.length - lookback)

/-- Model of `generate_forecast`: read records newer than
`now - (max(lookback, days) + 5)` days, aggregate per-day means per metric
over the most recent `lookback` days with data, require at least two days
of usable data in some metric, and extrapolate each metric linearly over
`days` future dates starting at tomorrow. -/
def generate_forecast (city : String) (days lookback : Nat) (now : PyDateTime)
    (s : Store) : Except HttpError ForecastResponse :=
  let since := now.subDays (max lookback days + 5)
  let records := read_records (some city) (some since) s
  if records = [] then
    Except.error ⟨404, "No stored data available for forecast"⟩
  else
    let distinctDates := (recordDates records).dedup
    if distinctDates = [] then
      Except.error ⟨404, "Insufficient numeric data for forecast"⟩
    else
      let dailyDates := lastLookback lookback (distinctDates.insertionSort dateLe)
      let tempSeries := metricSeries records WeatherRecord.tempC dailyDates
      let humidSeries := metricSeries records WeatherRecord.humidity dailyDates
      let windSeries := metricSeries records WeatherRecord.windKph dailyDates
      if tempSeries.length < 2 ∧ humidSeries.length < 2 ∧ windSeries.length < 2 then
        Except.error ⟨400, "Need at least two days of data for forecasting"⟩
      else
        let tempF := if tempSeries = [] then List.replicate days none
          else linearForecast tempSeries days
        let humidF := if humidSeries = [] then List.replicate days none
          else linearForecast humidSeries days
        let windF := if windSeries = [] then List.replicate days none
          else linearForecast windSeries days
        let daysOut := (List.range days).map fun idx =>
          ForecastDay.mk (now.date.addDays (idx + 1)).isoString
            (tempF.getD idx none) (humidF.getD idx none) (windF.getD idx none)
        Except.ok ⟨strToLower city, now.isoString, dailyDates.length, days, daysOut⟩

/-- Model of the `/forecast` handler `get_forecast`: validate the horizon
against the closed range `[2, 7]` and the lookback against `≥ 3` before any
storage access. -/
def get_forecast (city : String) (days lookback : Int) (now : PyDateTime)
    (s : Store) : Except HttpError ForecastResponse :=
  if days < 2 ∨ 7 < days then
    Except.error ⟨400, "Days must be between 2 and 7"⟩
  else if lookback < 3 then
    Except.error ⟨400, "Lookback should be at least 3 days"⟩
  else generate_forecast city days.toNat lookback.toNat now s

/-- Whether a line is one `json.loads` accepts (used to compare a store
against the same store with its corrupt lines removed). -/
def lineParses : JsonLine → Bool
  | JsonLine.bad _ => false
  | _ => true

/-- A file with its corrupt (unparsable) lines removed. -/
def scrubFile (f : PFile) : PFile :=
  ⟨f.name, f.lines.filter lineParses⟩

/-- A store with every corrupt line of every file removed. -/
def scrubStore (s : Store) : Store :=
  s.map fun p => ⟨p.name, p.files.map scrubFile⟩

/-- Sample call time used by concrete instantiations: 2025-01-05 00:00:00. -/
def sampleNow : PyDateTime := ⟨⟨2025, 1, 5⟩, 0, 0, 0⟩

/-- Sample valid record with a mixed-case city. -/
def sampleRecord : WeatherRecord :=
  ⟨"London", "2025-01-01T10:00:00", some 10, some 50, some 5, "clear sky"⟩

/-- Scenario record for city "london" on 2025-01-01. -/
def recJan1 : WeatherRecord :=
  ⟨"london", "2025-01-01T12:00:00", some 10, some 60, some 12, "clear sky"⟩

/-- Scenario record for city "london" on 2025-01-03. -/
def recJan3 : WeatherRecord :=
  ⟨"london", "2025-01-03T12:00:00", some 12, some 55, some 7, "overcast"⟩

/-- Sample record whose timestamp fails to parse. -/
def recBadTs : WeatherRecord :=
  ⟨"london", "not-a-date", some 5, some 40, some 3, "fog"⟩

/-- The history scenario store: records for "london" on 2025-01-01 and
2025-01-03 only. -/
def histStore : Store := writeAll sampleNow [recJan1, recJan3] []

/-- Sample underlying I/O failure. -/
def sampleExc : PyExc := ⟨"OSError", "[Errno 28] No space left on device"⟩

/-- A one-partition store holding only the record with the unparsable
timestamp. -/
def badTsStore : Store :=
  [⟨"date=2025-01-01", [⟨"london.jsonl", [JsonLine.ok recBadTs]⟩]⟩]

/-! ### Order properties of the string comparison -/

theorem charListLe_total : ∀ a b : List Char, charListLe a b = true ∨ charListLe b a = true
  | [], _ => Or.inl rfl
  | _ :: _, [] => Or.inr rfl
  | a :: as, b :: bs => by
      by_cases hab : a < b
      · left; simp [charListLe, hab]
      · by_cases hba : b < a
        · right; simp [charListLe, hba, hab]
        · have := charListLe_total as bs
          rcases this with h | h
          · left; simp [charListLe, hab, hba, h]
          · right; simp [charListLe, hab, hba, h]

theorem charListLe_trans : ∀ a b c : List Char,
    charListLe a b = true → charListLe b c = true → charListLe a c = true
  | [], _, _, _, _ => rfl
  | _ :: _, [], _, h, _ => by simp [charListLe] at h
  | _ :: _, _ :: _, [], _, h => by simp [charListLe] at h
  | a :: as, b :: bs, c :: cs, hab, hbc => by
      simp only [charListLe] at hab hbc ⊢
      by_cases h1 : a < b
      · by_cases h2 : b < c
        · simp [lt_trans h1 h2]
        · by_cases h3 : c < b
          · simp [h2, h3] at hbc
          · have hbc' : b = c := le_antisymm (le_of_not_lt h3) (le_of_not_lt h2)
            simp [hbc' ▸ h1]
      · by_cases h4 : b < a
        · simp [h1, h4] at hab
        · have hab' : a = b := le_antisymm (le_of_not_lt h4) (le_of_not_lt h1)
          subst hab'
          by_cases h2 : a < c
          · simp [h2]
          · by_cases h3 : c < a
            · simp [h2, h3] at hbc
            · simp [h2, h3] at hbc ⊢
              exact charListLe_trans as bs cs (by simpa [h1, h4] using hab) hbc

theorem charListLe_antisymm : ∀ a b : List Char,
    charListLe a b = true → charListLe b a = true → a = b
  | [], [], _, _ => rfl
  | [], _ :: _, _, h => by simp [charListLe] at h
  | _ :: _, [], h, _ => by simp [charListLe] at h
  | a :: as, b :: bs, hab, hba => by
      simp only [charListLe] at hab hba
      by_cases h1 : a < b
      · simp [h1, lt_asymm h1] at hba
      · by_cases h2 : b < a
        · simp [h1, h2] at hab
        · have : a = b := le_antisymm (le_of_not_lt h2) (le_of_not_lt h1)
          subst this
          have := charListLe_antisymm as bs (by simpa [h1] using hab)
            (by simpa [h1] using hba)
          rw [this]

instance : IsTotal String strLeProp :=
  ⟨fun a b => charListLe_total a.data b.data⟩

instance : IsTrans String strLeProp :=
  ⟨fun a b c => charListLe_trans a.data b.data c.data⟩

instance : IsAntisymm String strLeProp :=
  ⟨fun a b h1 h2 => by
    have h := charListLe_antisymm a.data b.data h1 h2
    cases a; cases b; exact congrArg String.mk h⟩

instance : IsTotal WeatherRecord tsDescLe :=
  ⟨fun a b => by
    unfold tsDescLe strLe
    exact charListLe_total b.timestamp.data a.timestamp.data⟩

instance : IsTrans WeatherRecord tsDescLe :=
  ⟨fun a b c h1 h2 => by
    unfold tsDescLe strLe at h1 h2 ⊢
    exact charListLe_trans c.timestamp.data b.timestamp.data a.timestamp.data h2 h1⟩

/-! ### Prefix and suffix facts about the modeled string helpers -/

theorem isPrefixOf_append_self : ∀ p t : List Char, p.isPrefixOf (p ++ t) = true
  | [], t => by cases t <;> rfl
  | a :: as, t => by
      simp only [List.cons_append, List.isPrefixOf, beq_self_eq_true, Bool.true_and]
      exact isPrefixOf_append_self as t

theorem strBeginsWith_append (pre rest : String) :
    strBeginsWith (pre ++ rest) pre = true := by
  unfold strBeginsWith
  rw [String.data_append]
  exact isPrefixOf_append_self pre.data rest.data

theorem strFinishesWith_append (front tail : String) :
    strFinishesWith (front ++ tail) tail = true := by
  unfold strFinishesWith
  unfold List.isSuffixOf
  rw [String.data_append, List.reverse_append]
  exact isPrefixOf_append_self tail.data.reverse front.data.reverse

theorem partitionNameOf_begins (now : PyDateTime) (r : WeatherRecord) :
    strBeginsWith (partitionNameOf now r) "date=" = true :=
  strBeginsWith_append "date=" (partitionDateOf now r).isoString

theorem fileNameOf_finishes (r : WeatherRecord) :
    strFinishesWith (fileNameOf r) ".jsonl" = true :=
  strFinishesWith_append (strToLower r.city) ".jsonl"

/-! ### The best-effort scan: corrupt lines never influence a read -/

theorem lineRecords_scrub (since? : Option PyDateTime) :
    ∀ lines : List JsonLine,
      lineRecords since? (lines.filter lineParses) = lineRecords since? lines
  | [] => rfl
  | JsonLine.ok r :: rest => by
      simp only [List.filter_cons, lineParses, if_pos, lineRecords]
      rw [lineRecords_scrub since? rest]
  | JsonLine.falsy :: rest => by
      simp only [List.filter_cons, lineParses, if_pos, lineRecords]
      exact lineRecords_scrub since? rest
  | JsonLine.bad raw :: rest => by
      simp only [List.filter_cons, lineParses, Bool.false_eq_true, if_neg, lineRecords]
      exact lineRecords_scrub since? rest

theorem fileListRecords_scrub (city? : Option String) (since? : Option PyDateTime) :
    ∀ files : List PFile,
      fileListRecords city? since? (files.map scrubFile) =
        fileListRecords city? since? files
  | [] => rfl
  | f :: fs => by
      simp only [List.map_cons, fileListRecords, scrubFile]
      rw [lineRecords_scrub since? f.lines, fileListRecords_scrub city? since? fs]

/-- C2: a line that fails to parse as JSON is skipped where it is read and
the scan continues: for every storage state, and every city/time filter,
`read_records` returns exactly what it returns on the same store with all
corrupt lines removed — every parseable record of the same file and of all
other files is still produced, and the read is a total function (the
failure is never escalated to the caller). -/
theorem c2_corrupt_line_skipped (city? : Option String) (since? : Option PyDateTime) :
    ∀ s : Store, read_records city? since? (scrubStore s) = read_records city? since? s
  | [] => rfl
  | p :: ps => by
      simp only [scrubStore, List.map_cons, read_records]
      rw [fileListRecords_scrub city? since? p.files]
      have ih := c2_corrupt_line_skipped city? since? ps
      simp only [scrubStore] at ih
      rw [ih]

/-! ### The `since` filter as a pure record-level predicate -/

theorem lineRecords_since (since : PyDateTime) :
    ∀ lines : List JsonLine,
      lineRecords (some since) lines =
        (lineRecords none lines).filter (keepRecord (some since))
  | [] => rfl
  | JsonLine.ok r :: rest => by
      have hnone : keepRecord none r = true := rfl
      simp only [lineRecords, hnone, if_pos, List.singleton_append, List.filter_cons]
      by_cases h : keepRecord (some since) r = true
      · simp only [h, if_pos, List.cons_append, List.nil_append]
        rw [lineRecords_since since rest]
      · simp only [Bool.not_eq_true] at h
        simp only [h, Bool.false_eq_true, if_false, List.nil_append]
        rw [lineRecords_since since rest]
  | JsonLine.falsy :: rest => by
      simp only [lineRecords]
      exact lineRecords_since since rest
  | JsonLine.bad raw :: rest => by
      simp only [lineRecords]
      exact lineRecords_since since rest

theorem fileListRecords_since (city? : Option String) (since : PyDateTime) :
    ∀ files : List PFile,
      fileListRecords city? (some since) files =
        (fileListRecords city? none files).filter (keepRecord (some since))
  | [] => rfl
  | f :: fs => by
      simp only [fileListRecords, List.filter_append]
      rw [fileListRecords_since city? since fs]
      by_cases h : strFinishesWith f.name ".jsonl" = true ∧
          cityMatches city? (fileCityOf f.name) = true
      · simp only [h, and_self, if_pos, lineRecords_since since f.lines]
      · simp only [if_neg h, List.filter_nil]

theorem read_records_since (city? : Option String) (since : PyDateTime) :
    ∀ s : Store,
      read_records city? (some since) s =
        (read_records city? none s).filter (keepRecord (some since))
  | [] => rfl
  | p :: ps => by
      simp only [read_records, List.filter_append]
      rw [read_records_since city? since ps]
      by_cases h : strBeginsWith p.name "date=" = true
      · simp only [h, if_pos, fileListRecords_since city? since p.files]
      · simp only [if_neg h, List.filter_nil]

theorem pyFromIso_empty : pyFromIso "" = none := rfl

/-- C4: under an active `since` filter, a stored record whose timestamp
string fails to parse is kept — its membership in the result is exactly its
membership in the unfiltered read, because the comparison is skipped on
parse failure — while a record whose timestamp parses to a datetime earlier
than `since` is dropped from the result. -/
theorem c4_since_filter (city? : Option String) (since : PyDateTime)
    (s : Store) (r : WeatherRecord) :
    (pyFromIso r.timestamp = none →
      (r ∈ read_records city? (some since) s ↔ r ∈ read_records city? none s)) ∧
    ∀ dt : PyDateTime, pyFromIso r.timestamp = some dt → dt.key < since.key →
      r ∉ read_records city? (some since) s := by
  constructor
  · intro hparse
    rw [read_records_since city? since s, List.mem_filter]
    have hkeep : keepRecord (some since) r = true := by
      unfold keepRecord
      by_cases hts : r.timestamp = ""
      · simp [hts]
      · simp [hts, hparse]
    simp [hkeep]
  · intro dt hparse hlt
    rw [read_records_since city? since s, List.mem_filter]
    have hts : r.timestamp ≠ "" := by
      intro hts
      rw [hts, pyFromIso_empty] at hparse
      exact Option.noConfusion hparse
    have hkeep : keepRecord (some since) r = false := by
      unfold keepRecord
      simp [hts, hparse, hlt]
    simp [hkeep]

/-- C4 witness: the record with the unparsable timestamp is kept under the
active `since` filter exactly as without it, and the record of 2025-01-01
is dropped when `since` is 2025-01-05. -/
theorem c4_since_filter_witness :
    (recBadTs ∈ read_records (some "london") (some sampleNow) badTsStore ↔
      recBadTs ∈ read_records (some "london") none badTsStore) ∧
    recJan1 ∉ read_records (some "london") (some sampleNow) histStore :=
  ⟨(c4_since_filter (some "london") sampleNow badTsStore recBadTs).1 (by decide),
   (c4_since_filter (some "london") sampleNow histStore recJan1).2
     ⟨⟨2025, 1, 1⟩, 12, 0, 0⟩ (by decide) (by decide)⟩

/-! ### Write-then-read round trip -/

theorem lineRecords_append_ok (r : WeatherRecord) :
    ∀ lines : List JsonLine,
      lineRecords none (lines ++ [JsonLine.ok r]) = lineRecords none lines ++ [r]
  | [] => rfl
  | JsonLine.ok q :: rest => by
      simp only [List.cons_append, lineRecords, List.append_eq]
      rw [lineRecords_append_ok r rest]
      simp [List.append_assoc]
  | JsonLine.falsy :: rest => by
      simp only [List.cons_append, lineRecords]
      exact lineRecords_append_ok r rest
  | JsonLine.bad raw :: rest => by
      simp only [List.cons_append, lineRecords]
      exact lineRecords_append_ok r rest

theorem cityMatches_self (r : WeatherRecord)
    (h : fileCityOf (fileNameOf r) = strToLower r.city) :
    cityMatches (some r.city) (fileCityOf (fileNameOf r)) = true := by
  unfold cityMatches
  by_cases hc : r.city = ""
  · simp [hc]
  · simp [hc, h]

theorem mem_fileListRecords_append (r : WeatherRecord)
    (h : fileCityOf (fileNameOf r) = strToLower r.city) :
    ∀ files : List PFile,
      r ∈ fileListRecords (some r.city) none
        (appendLineToFiles (fileNameOf r) (JsonLine.ok r) files)
  | [] => by
      simp only [appendLineToFiles, fileListRecords, fileNameOf_finishes,
        cityMatches_self r h, and_self, if_pos, List.append_nil]
      simp [lineRecords, keepRecord]
  | f :: fs => by
      by_cases hname : f.name = fileNameOf r
      · simp only [appendLineToFiles, hname, if_pos, fileListRecords]
        rw [List.mem_append]
        left
        simp only [hname, fileNameOf_finishes, cityMatches_self r h, and_self, if_pos]
        rw [lineRecords_append_ok r f.lines, List.mem_append]
        right
        exact List.mem_singleton.mpr rfl
      · simp only [appendLineToFiles, hname, if_false, if_neg hname, fileListRecords]
        rw [List.mem_append]
        right
        exact mem_fileListRecords_append r h fs

/-- C1: on the Local backend, for every valid weather record (one whose
lowercased city round-trips through the `<city>.jsonl` filename encoding,
i.e. contains no ".jsonl" of its own), `write_record` followed by
`read_records` for that record's city with no time filter returns a list
containing that exact record, structurally equal field for field, from any
starting storage state. -/
theorem c1_write_then_read (now : PyDateTime) (r : WeatherRecord)
    (h : fileCityOf (fileNameOf r) = strToLower r.city) :
    ∀ s : Store, r ∈ read_records (some r.city) none (write_record now r s)
  | [] => by
      simp only [write_record, read_records, partitionNameOf_begins now r, if_true,
        List.append_nil]
      exact mem_fileListRecords_append r h []
  | p :: ps => by
      by_cases hname : p.name = partitionNameOf now r
      · simp only [write_record, hname, if_pos, read_records]
        rw [List.mem_append]
        left
        rw [partitionNameOf_begins now r, if_pos rfl]
        exact mem_fileListRecords_append r h p.files
      · simp only [write_record, if_neg hname, read_records]
        rw [List.mem_append]
        right
        exact c1_write_then_read now r h ps

/-- C1 witness: the sample record for "London" written into the empty store
is returned by a city-filtered read with no time filter. -/
theorem c1_write_then_read_witness :
    fileCityOf (fileNameOf sampleRecord) = strToLower sampleRecord.city ∧
      sampleRecord ∈ read_records (some sampleRecord.city) none
        (write_record sampleNow sampleRecord []) :=
  ⟨by decide, c1_write_then_read sampleNow sampleRecord (by decide) []⟩

/-! ### Write-failure surfacing -/

/-- C5 counterexample: when the underlying I/O layer fails with an
`OSError`, the Remote backend raises a plain `Exception` (not a
`StorageWriteError`) and the Local backend propagates the raw `OSError`
(not a `StorageWriteError`); the two backends do not even raise the same
type, so no single dedicated error type exists. -/
theorem c5_counterexample :
    hdfs_write_record (some sampleExc) sampleRecord =
      Except.error ⟨"Exception", "HDFS write failed: [Errno 28] No space left on device"⟩ ∧
    local_write_record_exc (some sampleExc) sampleNow sampleRecord [] =
      Except.error sampleExc ∧
    sampleExc.typeName = "OSError" ∧
    ("Exception" : String) ≠ "StorageWriteError" ∧
    ("OSError" : String) ≠ "StorageWriteError" ∧
    ("Exception" : String) ≠ "OSError" := by
  refine ⟨rfl, rfl, rfl, ?_, ?_, ?_⟩ <;> decide

/-- C5 amended: when `write_record` fails with a backend I/O error, the
Remote backend raises a plain `Exception` whose message is
`"HDFS write failed: "` followed by the cause, and the Local backend
propagates the underlying error to the caller unwrapped; no dedicated
`StorageWriteError` type exists in the program. -/
theorem c5_write_error_surfacing (e : PyExc) (r : WeatherRecord)
    (now : PyDateTime) (s : Store) :
    hdfs_write_record (some e) r =
      Except.error ⟨"Exception", "HDFS write failed: " ++ e.msg⟩ ∧
    local_write_record_exc (some e) now r s = Except.error e :=
  ⟨rfl, rfl⟩

/-! ### Linear forecast arithmetic -/

/-- C7: the linear forecast fits ordinary least squares over the day-index
sequence and extrapolates forward: on the two-point series `[10.0, 12.0]`
the fitted slope is exactly `2.0`, the intercept is exactly `10.0`, and the
extrapolation to the next day (index 2) is exactly `14.0`. -/
theorem c7_linear_forecast_two_points :
    linSlope [10, 12] = 2 ∧ linIntercept [10, 12] = 10 ∧
      linearForecast [10, 12] 1 = [some 14] := by
  have hslope : linSlope [10, 12] = 2 := by
    unfold linSlope
    norm_num [List.range_succ]
  have hicept : linIntercept [10, 12] = 10 := by
    unfold linIntercept
    rw [hslope]
    norm_num [List.range_succ]
  refine ⟨hslope, hicept, ?_⟩
  unfold linearForecast
  rw [if_neg (by simp), if_neg (by simp)]
  rw [hslope, hicept]
  norm_num [List.range_succ, pyRound2, roundHalfEven, ratFloor]

/-! ### Forecast horizon validation -/

/-- C9: every forecast request with a horizon outside the closed range
`[2, 7]` is rejected with the 400 validation error, identically for every
storage state and before any storage read or forecast computation — the
result does not depend on the store, so no partial result is ever
produced. -/
theorem c9_horizon_validation (days : Int) (h : days < 2 ∨ 7 < days)
    (city : String) (lookback : Int) (now : PyDateTime) (s : Store) :
    get_forecast city days lookback now s =
      Except.error ⟨400, "Days must be between 2 and 7"⟩ := by
  unfold get_forecast
  rw [if_pos h]

/-- C9 witness: horizons 1 and 8 are both rejected with the validation
error, on the empty store and on a store with data alike. -/
theorem c9_horizon_validation_witness :
    get_forecast "london" 1 14 sampleNow [] =
      Except.error ⟨400, "Days must be between 2 and 7"⟩ ∧
    get_forecast "london" 8 14 sampleNow histStore =
      Except.error ⟨400, "Days must be between 2 and 7"⟩ :=
  ⟨c9_horizon_validation 1 (by norm_num) "london" 14 sampleNow [],
   c9_horizon_validation 8 (by norm_num) "london" 14 sampleNow histStore⟩

/-! ### Batch ingest is not atomic -/

theorem ingestLoop_failure (now : PyDateTime) (e : PyExc) (rk : WeatherRecord)
    (post : List (Option PyExc × WeatherRecord)) :
    ∀ (pre : List WeatherRecord) (s : Store) (count : Nat),
      ingestLoop now (pre.map (fun r => ((none : Option PyExc), r)) ++
          ((some e, rk) :: post)) s count =
        (Except.error ⟨500, e.msg⟩, writeAll now pre s)
  | [], s, count => rfl
  | r :: rest, s, count => by
      simp only [List.map_cons, List.cons_append, ingestLoop, local_write_record_exc]
      exact ingestLoop_failure now e rk post rest (write_record now r s) (count + 1)

/-- C10: batch ingest is not atomic. Records are written one at a time in
input order; when the underlying write of the k-th record raises, the first
k-1 records remain durably stored (the resulting state is exactly the
initial state with them appended, no rollback), while the whole ingest call
reports a 500 error carrying the exception's message instead of a stored
count. -/
theorem c10_ingest_not_atomic (now : PyDateTime) (pre : List WeatherRecord)
    (e : PyExc) (rk : WeatherRecord) (post : List (Option PyExc × WeatherRecord))
    (s : Store) :
    ingest_weather now (pre.map (fun r => ((none : Option PyExc), r)) ++
        ((some e, rk) :: post)) s =
      (Except.error ⟨500, e.msg⟩, writeAll now pre s) := by
  unfold ingest_weather
  rw [if_neg (by simp)]
  exact ingestLoop_failure now e rk post pre s 0

/-! ### History retrieval -/

/-- C3 counterexample: the history operation has no start/end calendar-day
window at all. With records stored for "london" only on 2025-01-01 and
2025-01-03 and the call time 2025-01-05, the code's history request (whose
only time parameter is `days`, here 7) returns both records — not the zero
records the claimed `[2025-01-02, 2025-01-02]` window request would yield —
while the window semantics described by the spec (`specHistoryWindow`)
would indeed return zero records on this store. -/
theorem c3_counterexample :
    (get_history (some "london") 7 sampleNow histStore).map
        (fun r => r.timestamp) =
      ["2025-01-03T12:00:00", "2025-01-01T12:00:00"] ∧
    specHistoryWindow (some "london") ⟨2025, 1, 2⟩ ⟨2025, 1, 2⟩ histStore = [] := by
  constructor <;> decide

/-- C3 amended: the history operation filters records only by the
`since`-based recency window `now - timedelta(days=days)` — it accepts no
start/end calendar-day parameters — and returns exactly the records of the
since-filtered read, reordered descending by raw timestamp string. -/
theorem c3_history_recency_only (city? : Option String) (days : Nat)
    (now : PyDateTime) (s : Store) :
    (get_history city? days now s).Perm
        (read_records city? (some (now.subDays days)) s) ∧
      List.Sorted tsDescLe (get_history city? days now s) :=
  ⟨List.perm_insertionSort tsDescLe _, List.sorted_insertionSort tsDescLe _⟩

/-! ### City listing -/

theorem mem_collectFileCities_append (fname : String) (line : JsonLine) (c : String) :
    ∀ fs : List PFile,
      c ∈ collectFileCities (appendLineToFiles fname line fs) ↔
        c ∈ collectFileCities fs ∨
          (strFinishesWith fname ".jsonl" = true ∧
            strToLower (fileCityOf fname) ≠ "" ∧ c = strToLower (fileCityOf fname))
  | [] => by
      simp only [appendLineToFiles, collectFileCities, List.append_nil,
        List.not_mem_nil, false_or]
      by_cases h1 : strFinishesWith fname ".jsonl" = true
      · by_cases h2 : strToLower (fileCityOf fname) = ""
        · simp [h1, h2]
        · simp [h1, h2]
      · simp [h1]
  | f :: fs => by
      by_cases hname : f.name = fname
      · simp only [appendLineToFiles, hname, if_pos, collectFileCities,
          List.mem_append]
        constructor
        · exact fun hmem => Or.inl hmem
        · rintro (hmem | ⟨hfin, hne, hc⟩)
          · exact hmem
          · left
            simp [hfin, hne, hc]
      · simp only [appendLineToFiles, if_neg hname, collectFileCities,
          List.mem_append, mem_collectFileCities_append fname line c fs]
        tauto

theorem mem_collectCities_write (now : PyDateTime) (r : WeatherRecord) (c : String) :
    ∀ s : Store,
      c ∈ collectCities (write_record now r s) ↔
        c ∈ collectCities s ∨ (cityKey r ≠ "" ∧ c = cityKey r)
  | [] => by
      simp only [write_record, collectCities, partitionNameOf_begins now r, if_true,
        List.append_nil, collectFileCities, fileNameOf_finishes r, true_and,
        List.not_mem_nil, false_or, cityKey]
      by_cases hne : strToLower (fileCityOf (fileNameOf r)) = ""
      · simp [hne]
      · simp [hne]
  | p :: ps => by
      by_cases hname : p.name = partitionNameOf now r
      · simp only [write_record, hname, if_pos, collectCities, List.mem_append,
          partitionNameOf_begins now r, if_true,
          mem_collectFileCities_append (fileNameOf r) (JsonLine.ok r) c p.files,
          fileNameOf_finishes r, true_and]
        unfold cityKey
        tauto
      · simp only [write_record, if_neg hname, collectCities, List.mem_append,
          mem_collectCities_write now r c ps]
        tauto

theorem mem_collectCities_writeAll (now : PyDateTime) (c : String) :
    ∀ (l : List WeatherRecord) (s : Store),
      c ∈ collectCities (writeAll now l s) ↔
        c ∈ collectCities s ∨ ∃ r ∈ l, cityKey r ≠ "" ∧ c = cityKey r
  | [], s => by simp [writeAll]
  | r :: rest, s => by
      have hstep : writeAll now (r :: rest) s = writeAll now rest (write_record now r s) :=
        rfl
      rw [hstep, mem_collectCities_writeAll now c rest (write_record now r s),
        mem_collectCities_write now r c s]
      simp only [List.mem_cons]
      constructor
      · rintro ((h | h) | ⟨q, hq, hkey⟩)
        · exact Or.inl h
        · exact Or.inr ⟨r, Or.inl rfl, h⟩
        · exact Or.inr ⟨q, Or.inr hq, hkey⟩
      · rintro (h | ⟨q, hq | hq, hkey⟩)
        · exact Or.inl (Or.inl h)
        · exact Or.inl (Or.inr (hq ▸ hkey))
        · exact Or.inr ⟨q, hq, hkey⟩

/-- C6: `list_cities` always returns the distinct city keys derived from
partition filenames (lowercased inside the collection step), deduplicated,
sorted ascending by Python string order: the result is sorted, has no
duplicates, contains exactly the collected city keys, re-sorting the result
changes nothing (idempotence under repeated calls), and the result after
writing a batch of records is invariant under permuting the write order. -/
theorem c6_list_cities (s : Store) (now : PyDateTime)
    (l₁ l₂ : List WeatherRecord) (s₀ : Store) :
    List.Sorted strLeProp (list_cities s) ∧
    (list_cities s).Nodup ∧
    (∀ c, c ∈ list_cities s ↔ c ∈ collectCities s) ∧
    list_cities s = pySortedSet (list_cities s) ∧
    (l₁.Perm l₂ →
      list_cities (writeAll now l₁ s₀) = list_cities (writeAll now l₂ s₀)) := by
  have hsorted : ∀ t : Store, List.Sorted strLeProp (list_cities t) := fun t =>
    List.sorted_insertionSort strLeProp (collectCities t).dedup
  have hnodup : ∀ t : Store, (list_cities t).Nodup := fun t =>
    ((List.perm_insertionSort strLeProp (collectCities t).dedup).symm).nodup
      (List.nodup_dedup (collectCities t))
  have hmem : ∀ (t : Store) (c : String),
      c ∈ list_cities t ↔ c ∈ collectCities t := fun t c => by
    unfold list_cities pySortedSet
    rw [(List.perm_insertionSort strLeProp (collectCities t).dedup).mem_iff,
      List.mem_dedup]
  refine ⟨hsorted s, hnodup s, hmem s, ?_, ?_⟩
  · apply List.eq_of_perm_of_sorted _ (hsorted s)
      (List.sorted_insertionSort strLeProp (list_cities s).dedup)
    have hded : (list_cities s).dedup = list_cities s :=
      List.dedup_eq_self.mpr (hnodup s)
    show (list_cities s).Perm (List.insertionSort strLeProp (list_cities s).dedup)
    rw [hded]
    exact (List.perm_insertionSort strLeProp (list_cities s)).symm
  · intro hperm
    apply List.eq_of_perm_of_sorted _ (hsorted _) (hsorted _)
    rw [List.perm_ext_iff_of_nodup (hnodup _) (hnodup _)]
    intro c
    rw [hmem _ c, hmem _ c, mem_collectCities_writeAll now c l₁ s₀,
      mem_collectCities_writeAll now c l₂ s₀]
    simp only [hperm.mem_iff]

/-- C6 witness: writing the two scenario records in either order yields the
same city listing. -/
theorem c6_list_cities_witness :
    list_cities (writeAll sampleNow [recJan1, recJan3] []) =
      list_cities (writeAll sampleNow [recJan3, recJan1] []) :=
  (c6_list_cities [] sampleNow [recJan1, recJan3] [recJan3, recJan1] []).2.2.2.2
    (List.Perm.swap recJan3 recJan1 [])

/-! ### Forecast degenerate cases -/

/-- C8 counterexample: with exactly one day of stored data (one record on
2025-01-01, call time 2025-01-05), `generate_forecast` does not return a
flat repeat of that day's mean — it rejects the request with the 400
"Need at least two days of data for forecasting" error, because every
per-metric series has length at most 1 and the insufficient-data check
fires before `_linear_forecast` is ever reached. -/
theorem c8_counterexample :
    generate_forecast "london" 3 14 sampleNow (write_record sampleNow recJan1 []) =
      Except.error ⟨400, "Need at least two days of data for forecasting"⟩ := by
  rfl

theorem lastLookback_singleton (lookback : Nat) (d : PyDate) :
    lastLookback lookback [d] = [d] := by
  unfold lastLookback
  cases lookback with
  | zero => rfl
  | succ n => simp

theorem metricSeries_single_day_len (records : List WeatherRecord)
    (get : WeatherRecord → Option ℚ) (d : PyDate) :
    (metricSeries records get [d]).length < 2 := by
  unfold metricSeries
  rw [List.filterMap_cons]
  cases hv : (if metricOn records get d = [] then none
      else some (pyRound2 (pyMean (metricOn records get d)))) with
  | none => simp
  | some x => simp

/-- C8 amended: in the linear-extrapolation forecast, zero historical days
of data yields an error (404, no stored data when the read is empty), and
exactly one day of data also yields an error (400, need at least two days)
— not a forecast — because with a single day every per-metric series has
length at most 1, so the insufficient-data check fires; the flat repeat of
a single day's mean exists only inside `_linear_forecast` itself, which for
a one-point series returns that rounded value for every requested period. -/
theorem c8_degenerate_days (city : String) (days lookback : Nat)
    (now : PyDateTime) (s : Store) :
    (read_records (some city) (some (now.subDays (max lookback days + 5))) s = [] →
      generate_forecast city days lookback now s =
        Except.error ⟨404, "No stored data available for forecast"⟩) ∧
    (∀ d : PyDate,
      (recordDates (read_records (some city)
          (some (now.subDays (max lookback days + 5))) s)).dedup = [d] →
      generate_forecast city days lookback now s =
        Except.error ⟨400, "Need at least two days of data for forecasting"⟩) ∧
    (∀ (v : ℚ) (periods : Nat),
      linearForecast [v] periods = List.replicate periods (some (pyRound2 v))) := by
  refine ⟨?_, ?_, ?_⟩
  · intro h
    simp only [generate_forecast]
    rw [if_pos h]
  · intro d hd
    have hne : read_records (some city)
        (some (now.subDays (max lookback days + 5))) s ≠ [] := by
      intro h0
      rw [h0] at hd
      simp [recordDates] at hd
    simp only [generate_forecast]
    rw [if_neg hne, hd]
    rw [if_neg (by simp : ¬([d] = []))]
    have hsort : List.insertionSort dateLe [d] = [d] := rfl
    rw [hsort, lastLookback_singleton lookback d]
    rw [if_pos ⟨metricSeries_single_day_len _ _ d, metricSeries_single_day_len _ _ d,
      metricSeries_single_day_len _ _ d⟩]
  · intro v periods
    simp [linearForecast]

/-- C8 witness: the empty store yields the 404 error, the one-day store
yields the 400 error, and `_linear_forecast` on the one-point series `[10]`
is the flat repeat `[10.0, 10.0]`. -/
theorem c8_degenerate_days_witness :
    generate_forecast "london" 3 14 sampleNow [] =
      Except.error ⟨404, "No stored data available for forecast"⟩ ∧
    generate_forecast "london" 3 14 sampleNow (write_record sampleNow recJan1 []) =
      Except.error ⟨400, "Need at least two days of data for forecasting"⟩ ∧
    linearForecast [10] 2 = List.replicate 2 (some (pyRound2 10)) :=
  ⟨(c8_degenerate_days "london" 3 14 sampleNow []).1 rfl,
   (c8_degenerate_days "london" 3 14 sampleNow
      (write_record sampleNow recJan1 [])).2.1 ⟨2025, 1, 1⟩ (by decide),
   (c8_degenerate_days "london" 3 14 sampleNow []).2.2 10 2⟩

end BDAWeather
